import Mathlib

/-!
Shallow embedding of `src/utils.py` (the `watch_process_time` timing
decorator) from the repository `python-is-faster`.

The module-level mutable globals of `utils.py`

  fastest_func = None
  slowest_time = None
  fastest_time = float('inf')
  fastest_args = None
  call_time = 0

become the fields of `TimingState`.  Durations are modelled as exact
rationals; `float('inf')` becomes `⊤ : WithTop ℚ`, and Python `None` for
the string-valued globals becomes `Option.none`.

One invocation of the wrapped function is a `CallEvent`: the wrapped
callable's `__name__`, the textual renderings of its positional and
keyword argument tuples (the wrapper only ever uses them inside an
f-string), the value the wrapped function would return (the wrapper
discards it), and the call's outcome — `some elapsed` when the call
returns after `elapsed` seconds of wall-clock time, `none` when it
raises (in which case no end timestamp exists, exactly as in the code,
where the exception propagates before `end = time.perf_counter()`).

`wrapper` is the body of the inner `wrapper(*args, **kwargs)` function:
it maps the pre-call global state and the call event to the post-call
global state, the list of `print`ed lines, and the call's result.
`runTrace` folds `wrapper` over a list of call events starting from the
initial globals, giving the process-wide state after those invocations.
-/

namespace PythonIsFaster

/-- One invocation of a function wrapped by `watch_process_time`. -/
structure CallEvent where
  /-- `func.__name__` of the wrapped callable. -/
  funcName : String
  /-- Textual rendering of the positional-argument tuple `args`. -/
  argsStr : String
  /-- Textual rendering of the keyword-argument dict `kwargs`. -/
  kwargsStr : String
  /-- The value `func(*args, **kwargs)` would return (discarded by the wrapper). -/
  ret : String
  /-- `some elapsed` when the call completes in `elapsed` seconds,
  `none` when the wrapped function raises. -/
  outcome : Option ℚ
deriving DecidableEq

/-- The module-level globals of `utils.py`. -/
structure TimingState where
  fastest_func : Option String
  slowest_time : Option ℚ
  fastest_time : WithTop ℚ
  fastest_args : Option String
  call_time : ℕ
deriving DecidableEq

/-- The globals as initialised at module import time. -/
def initState : TimingState :=
  { fastest_func := none
    slowest_time := none
    fastest_time := ⊤
    fastest_args := none
    call_time := 0 }

/-- One line printed by the wrapper, kept structurally (the repository only
formats these fields into coloured f-strings). -/
inductive OutLine where
  /-- `Total time taken to execute {func.__name__} : {elapsed_time:.5f} seconds` -/
  | timing (funcName : String) (elapsed : ℚ)
  /-- `Fastest test case was : {fastest_func} {fastest_args},  took {fastest_time}` -/
  | fastestLine (func : Option String) (args : Option String) (time : WithTop ℚ)
  /-- `That was {x_faster} X Faster!!!!!` -/
  | speedUp (ratio : ℚ)
deriving DecidableEq

/-- The result of one invocation of the wrapped function. -/
inductive CallResult where
  /-- The wrapped function raised; its exception propagates unchanged. -/
  | raised
  /-- The wrapper itself raised `TypeError` evaluating
  `slowest_time / fastest_time` with `slowest_time` still `None`. -/
  | typeError
  /-- The wrapper itself raised `ZeroDivisionError` evaluating
  `slowest_time / fastest_time` with `fastest_time == 0.0`. -/
  | zeroDivError
  /-- The wrapper fell off the end of its body: Python returns `None`. -/
  | retNone
  /-- The wrapper returned the f-string
  `Fastest test case was : {fastest_func} {fastest_args},  took {fastest_time}`,
  carried here by the three interpolated values. -/
  | retSummary (func : Option String) (args : Option String) (time : WithTop ℚ)
deriving DecidableEq

/-- `f"with args{args} and kwargs {kwargs}"` from `utils.py` line 26. -/
def argsCapture (c : CallEvent) : String :=
  "with args" ++ c.argsStr ++ " and kwargs " ++ c.kwargsStr

/-- Python float division `slowest / fastest` where `fastest` may be
`float('inf')`: `x / inf == 0.0`, and dividing by `0.0` raises
`ZeroDivisionError` (modelled as `none`). -/
def pyDiv (sl : ℚ) : WithTop ℚ → Option ℚ :=
  WithTop.recTopCoe (some 0) fun ft => if ft = 0 then none else some (sl / ft)

/-- Lines 23–26 of `utils.py`:
`if elapsed_time < fastest_time:` update `fastest_func`, `fastest_time`
and `fastest_args` together. -/
def updateFastest (s : TimingState) (c : CallEvent) (elapsed : ℚ) : TimingState :=
  if (elapsed : WithTop ℚ) < s.fastest_time then
    { s with
        fastest_func := some c.funcName
        fastest_time := (elapsed : WithTop ℚ)
        fastest_args := some (argsCapture c) }
  else s

/-- Lines 28–30 of `utils.py`:
`if call_time > 0: if elapsed_time > fastest_time: slowest_time = elapsed_time`
(the outer test sees `call_time` already incremented, the inner one sees
`fastest_time` already updated). -/
def updateSlowest (s : TimingState) (elapsed : ℚ) : TimingState :=
  if 0 < s.call_time then
    if s.fastest_time < (elapsed : WithTop ℚ) then
      { s with slowest_time := some elapsed }
    else s
  else s

/-- Lines 32–37 of `utils.py`: the `print` of the timing line, then, when
`call_time > 1`, the fastest-case line, `x_faster = slowest_time / fastest_time`
(which raises `TypeError` when `slowest_time` is still `None`), the speed-up
line, and the returned summary string; otherwise the wrapper falls off the
end and returns `None`.  `s3` is the fully updated state. -/
def summaryTail (s3 : TimingState) (c : CallEvent) (elapsed : ℚ) :
    List OutLine × CallResult :=
  let timingLine : OutLine := OutLine.timing c.funcName elapsed
  if 1 < s3.call_time then
    let fLine : OutLine :=
      OutLine.fastestLine s3.fastest_func s3.fastest_args s3.fastest_time
    match s3.slowest_time with
    | none => ([timingLine, fLine], CallResult.typeError)
    | some sl =>
        match pyDiv sl s3.fastest_time with
        | none => ([timingLine, fLine], CallResult.zeroDivError)
        | some r =>
            ([timingLine, fLine, OutLine.speedUp r],
              CallResult.retSummary s3.fastest_func s3.fastest_args s3.fastest_time)
  else ([timingLine], CallResult.retNone)

/-- The body of `wrapper(*args, **kwargs)` in `utils.py`: given the
pre-call globals and the call event, produce the post-call globals, the
printed lines, and the call's result, following the source line by line.
`call_time += 1` happens before `func(*args, **kwargs)` runs, so it
survives a raising call; everything after the call is skipped when the
wrapped function raises. -/
def wrapper (s : TimingState) (c : CallEvent) : TimingState × List OutLine × CallResult :=
  let s1 : TimingState := { s with call_time := s.call_time + 1 }
  match c.outcome with
  | none => (s1, [], CallResult.raised)
  | some elapsed =>
      let s3 : TimingState := updateSlowest (updateFastest s1 c elapsed) elapsed
      (s3, summaryTail s3 c elapsed)

/-- The post-call globals alone. -/
def wrapperState (s : TimingState) (c : CallEvent) : TimingState :=
  (wrapper s c).1

/-- The call's result alone. -/
def wrapperResult (s : TimingState) (c : CallEvent) : CallResult :=
  (wrapper s c).2.2

/-- The lines the call prints. -/
def wrapperOutput (s : TimingState) (c : CallEvent) : List OutLine :=
  (wrapper s c).2.1

/-- The globals after a sequence of wrapped invocations, starting from
module import. -/
def runTrace (evs : List CallEvent) : TimingState :=
  evs.foldl wrapperState initState

/-- The elapsed durations of the calls in a trace that completed without
raising, in order. -/
def completedDurations (evs : List CallEvent) : List ℚ :=
  evs.filterMap CallEvent.outcome

/-- `true` exactly on results that return the fastest-function summary string. -/
def CallResult.isSummary : CallResult → Bool
  | CallResult.retSummary _ _ _ => true
  | _ => false

/-! ### Basic step lemmas -/

theorem wrapper_outcome_none (s : TimingState) (c : CallEvent) (h : c.outcome = none) :
    wrapper s c = ({ s with call_time := s.call_time + 1 }, [], CallResult.raised) := by
  simp [wrapper, h]

theorem wrapperState_outcome_some (s : TimingState) (c : CallEvent) (e : ℚ)
    (h : c.outcome = some e) :
    wrapperState s c =
      { fastest_func :=
          if (e : WithTop ℚ) < s.fastest_time then some c.funcName else s.fastest_func
        slowest_time :=
          if s.fastest_time < (e : WithTop ℚ) then some e else s.slowest_time
        fastest_time := min s.fastest_time (e : WithTop ℚ)
        fastest_args :=
          if (e : WithTop ℚ) < s.fastest_time then some (argsCapture c) else s.fastest_args
        call_time := s.call_time + 1 } := by
  simp only [wrapperState, wrapper, h]
  by_cases hlt : (e : WithTop ℚ) < s.fastest_time
  · have hmin : min s.fastest_time (e : WithTop ℚ) = (e : WithTop ℚ) :=
      min_eq_right hlt.le
    have hnot : ¬ s.fastest_time < (e : WithTop ℚ) := not_lt.mpr hlt.le
    simp [updateSlowest, updateFastest, hlt, hmin, hnot]
  · have hle : s.fastest_time ≤ (e : WithTop ℚ) := not_lt.mp hlt
    have hmin : min s.fastest_time (e : WithTop ℚ) = s.fastest_time := min_eq_left hle
    by_cases hgt : s.fastest_time < (e : WithTop ℚ) <;>
      simp [updateSlowest, updateFastest, hlt, hmin, hgt]

theorem wrapperState_call_time (s : TimingState) (c : CallEvent) :
    (wrapperState s c).call_time = s.call_time + 1 := by
  cases h : c.outcome with
  | none => simp [wrapperState, wrapper_outcome_none s c h]
  | some e => simp [wrapperState_outcome_some s c e h]

theorem wrapperState_fastest_mono (s : TimingState) (c : CallEvent) :
    (wrapperState s c).fastest_time ≤ s.fastest_time := by
  cases h : c.outcome with
  | none => simp [wrapperState, wrapper_outcome_none s c h]
  | some e => simp [wrapperState_outcome_some s c e h]

/-! ### Trace lemmas -/

theorem runTrace_nil : runTrace [] = initState := rfl

theorem runTrace_concat (evs : List CallEvent) (c : CallEvent) :
    runTrace (evs ++ [c]) = wrapperState (runTrace evs) c := by
  simp [runTrace, List.foldl_append]

theorem completedDurations_concat (evs : List CallEvent) (c : CallEvent) :
    completedDurations (evs ++ [c]) =
      completedDurations evs ++ (c.outcome.map fun e => [e]).getD [] := by
  cases h : c.outcome <;> simp [completedDurations, h]

theorem runTrace_fastest (evs : List CallEvent) :
    (runTrace evs).fastest_time = (completedDurations evs).minimum := by
  induction evs using List.reverseRecOn with
  | nil => rfl
  | append_singleton evs c ih =>
      rw [runTrace_concat, completedDurations_concat]
      cases h : c.outcome with
      | none =>
          unfold wrapperState
          rw [wrapper_outcome_none _ c h]
          simpa using ih
      | some e =>
          rw [wrapperState_outcome_some _ c e h]
          simp [List.minimum_concat, ih]

theorem runTrace_call_time (evs : List CallEvent) :
    (runTrace evs).call_time = evs.length := by
  induction evs using List.reverseRecOn with
  | nil => rfl
  | append_singleton evs c ih =>
      rw [runTrace_concat, wrapperState_call_time, ih]
      simp

/-! ### Result-shape lemmas -/

theorem wrapperResult_outcome_some (s : TimingState) (c : CallEvent) (e : ℚ)
    (h : c.outcome = some e) :
    wrapperResult s c = (summaryTail (wrapperState s c) c e).2 := by
  simp [wrapperResult, wrapperState, wrapper, h]

theorem summaryTail_result_first (s3 : TimingState) (c : CallEvent) (e : ℚ)
    (h : ¬ 1 < s3.call_time) : (summaryTail s3 c e).2 = CallResult.retNone := by
  simp [summaryTail, h]

theorem summaryTail_result_typeError (s3 : TimingState) (c : CallEvent) (e : ℚ)
    (h1 : 1 < s3.call_time) (h2 : s3.slowest_time = none) :
    (summaryTail s3 c e).2 = CallResult.typeError := by
  simp [summaryTail, h1, h2]

theorem summaryTail_result_summary (s3 : TimingState) (c : CallEvent) (e sl ft : ℚ)
    (h1 : 1 < s3.call_time) (h2 : s3.slowest_time = some sl)
    (h3 : s3.fastest_time = (ft : WithTop ℚ)) (h4 : ft ≠ 0) :
    (summaryTail s3 c e).2 =
      CallResult.retSummary s3.fastest_func s3.fastest_args s3.fastest_time := by
  simp [summaryTail, h1, h2, h3, pyDiv, h4]

theorem summaryTail_isSummary (s3 : TimingState) (c : CallEvent) (e : ℚ)
    (h : (summaryTail s3 c e).2.isSummary = true) :
    s3.slowest_time ≠ none ∧ 1 < s3.call_time := by
  by_cases h1 : 1 < s3.call_time
  · refine ⟨?_, h1⟩
    cases h2 : s3.slowest_time with
    | none => rw [summaryTail_result_typeError s3 c e h1 h2] at h; simp [CallResult.isSummary] at h
    | some sl => simp [h2]
  · rw [summaryTail_result_first s3 c e h1] at h
    simp [CallResult.isSummary] at h

/-! ### Reachable-state invariants -/

theorem runTrace_fastest_ne_top (evs : List CallEvent) (c : CallEvent) (e : ℚ)
    (h : c.outcome = some e) : (wrapperState (runTrace evs) c).fastest_time ≠ ⊤ := by
  rw [wrapperState_outcome_some _ c e h]
  dsimp only
  have hmin : min (runTrace evs).fastest_time (e : WithTop ℚ) ≤ (e : WithTop ℚ) :=
    min_le_right _ _
  exact fun h' => WithTop.coe_ne_top (top_le_iff.mp (h' ▸ hmin))

theorem runTrace_slowest_ne_none (evs : List CallEvent) :
    (runTrace evs).slowest_time ≠ none → (runTrace evs).fastest_time ≠ ⊤ := by
  induction evs using List.reverseRecOn with
  | nil => intro h; exact absurd rfl h
  | append_singleton evs c ih =>
      rw [runTrace_concat]
      cases h : c.outcome with
      | none =>
          unfold wrapperState
          rw [wrapper_outcome_none _ c h]
          exact ih
      | some e => exact fun _ => runTrace_fastest_ne_top evs c e h

theorem runTrace_consistent (evs : List CallEvent) :
    ((runTrace evs).fastest_func = none ↔ (runTrace evs).fastest_time = ⊤) ∧
      ((runTrace evs).fastest_args = none ↔ (runTrace evs).fastest_time = ⊤) := by
  induction evs using List.reverseRecOn with
  | nil => simp [runTrace, initState]
  | append_singleton evs c ih =>
      rw [runTrace_concat]
      cases h : c.outcome with
      | none =>
          unfold wrapperState
          rw [wrapper_outcome_none _ c h]
          exact ih
      | some e =>
          have hne := runTrace_fastest_ne_top evs c e h
          rw [wrapperState_outcome_some _ c e h] at hne ⊢
          by_cases hlt : (e : WithTop ℚ) < (runTrace evs).fastest_time
          · simp [hlt, hne]
          · have hle : (runTrace evs).fastest_time ≤ (e : WithTop ℚ) := not_lt.mp hlt
            have htop : (runTrace evs).fastest_time ≠ ⊤ := by
              intro h'
              rw [h'] at hle
              exact WithTop.coe_ne_top (top_le_iff.mp hle)
            simp only [if_neg hlt, hne, iff_false]
            constructor
            · intro h'; exact absurd (ih.1.mp h') htop
            · intro h'; exact absurd (ih.2.mp h') htop

theorem wrapperResult_retNone (s : TimingState) (c : CallEvent) (e : ℚ)
    (h : c.outcome = some e) (h0 : s.call_time = 0) :
    wrapperResult s c = CallResult.retNone := by
  rw [wrapperResult_outcome_some s c e h]
  apply summaryTail_result_first
  rw [wrapperState_call_time]
  omega

theorem wrapperResult_summary_of (s : TimingState) (c : CallEvent) (e sl ft : ℚ)
    (h : c.outcome = some e) (h1 : 1 ≤ s.call_time)
    (h2 : (wrapperState s c).slowest_time = some sl)
    (h3 : (wrapperState s c).fastest_time = (ft : WithTop ℚ)) (h4 : ft ≠ 0) :
    wrapperResult s c =
      CallResult.retSummary (wrapperState s c).fastest_func
        (wrapperState s c).fastest_args (wrapperState s c).fastest_time := by
  rw [wrapperResult_outcome_some s c e h]
  exact summaryTail_result_summary _ c e sl ft
    (by rw [wrapperState_call_time]; omega) h2 h3 h4

theorem wrapperResult_typeError_of (s : TimingState) (c : CallEvent) (e : ℚ)
    (h : c.outcome = some e) (h1 : 1 ≤ s.call_time)
    (h2 : (wrapperState s c).slowest_time = none) :
    wrapperResult s c = CallResult.typeError := by
  rw [wrapperResult_outcome_some s c e h]
  exact summaryTail_result_typeError _ c e
    (by rw [wrapperState_call_time]; omega) h2

theorem runTrace_completed_ne_nil (evs : List CallEvent)
    (h : (runTrace evs).fastest_time ≠ ⊤) :
    1 ≤ (completedDurations evs).length := by
  rw [runTrace_fastest] at h
  cases hl : completedDurations evs with
  | nil => rw [hl] at h; exact absurd List.minimum_nil h
  | cons a l => simp

/-! ### The claims -/

/-- Claim C1: for every sequence of wrapped invocations, the shared
`fastest_time` after N calls equals the minimum elapsed duration among the
calls that completed without raising, and it equals its initial value —
positive infinity, here `⊤` — when no call has completed (`List.minimum`
of the empty list is `⊤`). -/
theorem fastest_time_eq_min_completed :
    initState.fastest_time = ⊤ ∧
      ∀ evs : List CallEvent,
        (runTrace evs).fastest_time = (completedDurations evs).minimum :=
  ⟨rfl, runTrace_fastest⟩

/-- Claim C2, evaluated at the spec's own scenario (`f(x) = sleep(x)`,
called with `x = 0.05` then `x = 0.01`, so elapsed durations `5/100` and
`1/100`): after call 1 `fastest_time = 5/100` and the wrapper returns
`None`; after call 2 `fastest_time = 1/100` and `fastest_func = "f"`, but
`slowest_time` is still `None` — it is only assigned when a call is slower
than the updated fastest — so the second call prints the timing and
fastest-case lines and then raises `TypeError` computing
`slowest_time / fastest_time`, instead of reporting a 5.0 speed-up and
returning the summary as the claim expects. -/
theorem scenario_five_then_one_raises :
    (runTrace [⟨"f", "(0.05,)", "\x7b\x7d", "True", some (5/100)⟩]).fastest_time
        = ((5/100 : ℚ) : WithTop ℚ) ∧
      wrapperResult initState ⟨"f", "(0.05,)", "\x7b\x7d", "True", some (5/100)⟩
        = CallResult.retNone ∧
      (runTrace [⟨"f", "(0.05,)", "\x7b\x7d", "True", some (5/100)⟩,
          ⟨"f", "(0.01,)", "\x7b\x7d", "True", some (1/100)⟩]).fastest_time
        = ((1/100 : ℚ) : WithTop ℚ) ∧
      (runTrace [⟨"f", "(0.05,)", "\x7b\x7d", "True", some (5/100)⟩,
          ⟨"f", "(0.01,)", "\x7b\x7d", "True", some (1/100)⟩]).fastest_func
        = some "f" ∧
      (runTrace [⟨"f", "(0.05,)", "\x7b\x7d", "True", some (5/100)⟩,
          ⟨"f", "(0.01,)", "\x7b\x7d", "True", some (1/100)⟩]).slowest_time
        = none ∧
      wrapperResult (runTrace [⟨"f", "(0.05,)", "\x7b\x7d", "True", some (5/100)⟩])
          ⟨"f", "(0.01,)", "\x7b\x7d", "True", some (1/100)⟩
        = CallResult.typeError := by
  norm_num [runTrace, wrapperState, wrapperResult, wrapper, initState,
    updateFastest, updateSlowest, summaryTail, List.foldl]

/-- Claim C3: a wrapped invocation whose function raises propagates the
exception unchanged, prints nothing, leaves `fastest_func`, `fastest_time`,
`fastest_args` and `slowest_time` exactly as they were, and has already
incremented `call_time` by 1 (the increment precedes the call in the
source, the elapsed-time computation follows it and is skipped). -/
theorem raising_call_increments_count_only (s : TimingState) (c : CallEvent)
    (h : c.outcome = none) :
    wrapper s c = ({ s with call_time := s.call_time + 1 }, [], CallResult.raised) :=
  wrapper_outcome_none s c h

/-- Witness for `raising_call_increments_count_only` at a concrete raising
call from the initial state. -/
theorem raising_call_increments_count_only_witness :
    wrapper initState ⟨"g", "()", "\x7b\x7d", "", none⟩ =
      ({ initState with call_time := 1 }, [], CallResult.raised) :=
  raising_call_increments_count_only initState ⟨"g", "()", "\x7b\x7d", "", none⟩ rfl

/-- Claim C4: across any sequence of attempted invocations, possibly
including raising ones, a call that returns the speed-up summary must
itself have completed and must have been preceded by at least one earlier
completed call — equivalently, the first call that completes without
raising never returns the summary. -/
theorem summary_only_after_completed_call (evs : List CallEvent) (c : CallEvent)
    (h : (wrapperResult (runTrace evs) c).isSummary = true) :
    c.outcome ≠ none ∧ 1 ≤ (completedDurations evs).length := by
  cases hc : c.outcome with
  | none =>
      simp only [wrapperResult, wrapper_outcome_none _ c hc] at h
      simp [CallResult.isSummary] at h
  | some e =>
      refine ⟨by simp [hc], ?_⟩
      rw [wrapperResult_outcome_some _ c e hc] at h
      obtain ⟨hsl, -⟩ := summaryTail_isSummary _ c e h
      rw [wrapperState_outcome_some _ c e hc] at hsl
      dsimp only at hsl
      by_cases hgt : (runTrace evs).fastest_time < (e : WithTop ℚ)
      · exact runTrace_completed_ne_nil evs (ne_top_of_lt hgt)
      · rw [if_neg hgt] at hsl
        exact runTrace_completed_ne_nil evs (runTrace_slowest_ne_none evs hsl)

/-- Witness for `summary_only_after_completed_call`: after one completed
call of duration 1, a second completed call of duration 5 returns the
summary, and indeed one earlier completed call exists. -/
theorem summary_only_after_completed_call_witness :
    (⟨"f", "(5,)", "\x7b\x7d", "True", some 5⟩ : CallEvent).outcome ≠ none ∧
      1 ≤ (completedDurations [⟨"f", "(1,)", "\x7b\x7d", "True", some 1⟩]).length :=
  summary_only_after_completed_call [⟨"f", "(1,)", "\x7b\x7d", "True", some 1⟩]
    ⟨"f", "(5,)", "\x7b\x7d", "True", some 5⟩ (by decide)

/-- Claim C5 counterexample: two completed calls, `a` then `b`, both of
elapsed duration 1.  Call `b` did not just become the fastest — the
fastest triple still names `a` — yet the post-update condition
`elapsed > fastest_time` is false (it is a tie), so `slowest_time` is not
set; the claim asserts the condition is true in every case except when the
call just became the fastest, which fails here. -/
theorem slowest_condition_tie_counterexample :
    (runTrace [⟨"a", "(1,)", "\x7b\x7d", "True", some 1⟩,
        ⟨"b", "(1,)", "\x7b\x7d", "True", some 1⟩]).fastest_func = some "a" ∧
      (runTrace [⟨"a", "(1,)", "\x7b\x7d", "True", some 1⟩,
          ⟨"b", "(1,)", "\x7b\x7d", "True", some 1⟩]).fastest_time
        = ((1 : ℚ) : WithTop ℚ) ∧
      ¬ (runTrace [⟨"a", "(1,)", "\x7b\x7d", "True", some 1⟩,
          ⟨"b", "(1,)", "\x7b\x7d", "True", some 1⟩]).fastest_time
          < ((1 : ℚ) : WithTop ℚ) ∧
      (runTrace [⟨"a", "(1,)", "\x7b\x7d", "True", some 1⟩,
          ⟨"b", "(1,)", "\x7b\x7d", "True", some 1⟩]).slowest_time = none := by
  decide

/-- Claim C5 as amended: on a completed call the post-update condition
`elapsed > fastest_time` holds exactly when the call's elapsed duration
strictly exceeds the pre-call `fastest_time` — so it is false not only
when this call just became the fastest but also when it exactly ties the
current fastest — and whenever it holds, `slowest_time` is set to this
call's elapsed duration (the guard `call_time > 0` is always true there);
otherwise `slowest_time` is left unchanged. -/
theorem slowest_set_iff_exceeds_prior_fastest (s : TimingState) (c : CallEvent)
    (e : ℚ) (h : c.outcome = some e) :
    ((wrapperState s c).fastest_time < (e : WithTop ℚ) ↔
        s.fastest_time < (e : WithTop ℚ)) ∧
      (s.fastest_time < (e : WithTop ℚ) →
        (wrapperState s c).slowest_time = some e) ∧
      (¬ s.fastest_time < (e : WithTop ℚ) →
        (wrapperState s c).slowest_time = s.slowest_time) := by
  rw [wrapperState_outcome_some s c e h]
  dsimp only
  refine ⟨?_, fun hgt => by rw [if_pos hgt], fun hgt => by rw [if_neg hgt]⟩
  constructor
  · intro h'
    rcases min_lt_iff.mp h' with h' | h'
    · exact h'
    · exact absurd h' (lt_irrefl _)
  · intro h'
    exact min_lt_iff.mpr (Or.inl h')

/-- Witness for `slowest_set_iff_exceeds_prior_fastest`: after one
completed call of duration 1, a call of duration 5 exceeds the prior
fastest and sets `slowest_time` to 5. -/
theorem slowest_set_iff_exceeds_prior_fastest_witness :
    ((wrapperState (runTrace [⟨"f", "(1,)", "\x7b\x7d", "True", some 1⟩])
          ⟨"f", "(5,)", "\x7b\x7d", "True", some 5⟩).fastest_time
        < ((5 : ℚ) : WithTop ℚ) ↔
      (runTrace [⟨"f", "(1,)", "\x7b\x7d", "True", some 1⟩]).fastest_time
        < ((5 : ℚ) : WithTop ℚ)) ∧
    ((runTrace [⟨"f", "(1,)", "\x7b\x7d", "True", some 1⟩]).fastest_time
        < ((5 : ℚ) : WithTop ℚ) →
      (wrapperState (runTrace [⟨"f", "(1,)", "\x7b\x7d", "True", some 1⟩])
          ⟨"f", "(5,)", "\x7b\x7d", "True", some 5⟩).slowest_time = some 5) ∧
    (¬ (runTrace [⟨"f", "(1,)", "\x7b\x7d", "True", some 1⟩]).fastest_time
        < ((5 : ℚ) : WithTop ℚ) →
      (wrapperState (runTrace [⟨"f", "(1,)", "\x7b\x7d", "True", some 1⟩])
          ⟨"f", "(5,)", "\x7b\x7d", "True", some 5⟩).slowest_time
        = (runTrace [⟨"f", "(1,)", "\x7b\x7d", "True", some 1⟩]).slowest_time) :=
  slowest_set_iff_exceeds_prior_fastest
    (runTrace [⟨"f", "(1,)", "\x7b\x7d", "True", some 1⟩])
    ⟨"f", "(5,)", "\x7b\x7d", "True", some 5⟩ 5 rfl

/-- Claim C6: over the process lifetime `fastest_time` is monotonically
non-increasing and `call_time` is monotonically increasing — every
invocation, completing or raising, leaves `fastest_time` no larger and
increments `call_time` by exactly 1 — and after N attempted calls
`call_time` equals N. -/
theorem fastest_monotone_call_time_counts :
    (∀ (s : TimingState) (c : CallEvent),
        (wrapperState s c).fastest_time ≤ s.fastest_time ∧
          (wrapperState s c).call_time = s.call_time + 1) ∧
      ∀ evs : List CallEvent, (runTrace evs).call_time = evs.length :=
  ⟨fun s c => ⟨wrapperState_fastest_mono s c, wrapperState_call_time s c⟩,
    runTrace_call_time⟩

/-- Claim C7: if a completed call's elapsed duration is strictly smaller
than that of every previously completed call, then immediately afterwards
`fastest_func` is that call's function name, `fastest_args` is the textual
capture of exactly that call's positional and keyword arguments, and
`fastest_time` is its elapsed duration. -/
theorem strictly_faster_call_becomes_fastest (evs : List CallEvent) (c : CallEvent)
    (e : ℚ) (h : c.outcome = some e)
    (hfast : ∀ d ∈ completedDurations evs, e < d) :
    (wrapperState (runTrace evs) c).fastest_func = some c.funcName ∧
      (wrapperState (runTrace evs) c).fastest_args = some (argsCapture c) ∧
      (wrapperState (runTrace evs) c).fastest_time = (e : WithTop ℚ) := by
  have hlt : (e : WithTop ℚ) < (runTrace evs).fastest_time := by
    rw [runTrace_fastest]
    rcases eq_or_ne (completedDurations evs).minimum ⊤ with ht | ht
    · rw [ht]; exact WithTop.coe_lt_top e
    · obtain ⟨m, hm⟩ := WithTop.ne_top_iff_exists.mp ht
      rw [← hm]
      exact WithTop.coe_lt_coe.mpr (hfast m (List.minimum_mem hm.symm))
  rw [wrapperState_outcome_some _ c e h]
  dsimp only
  simp only [if_pos hlt]
  exact ⟨trivial, trivial, min_eq_right hlt.le⟩

/-- Witness for `strictly_faster_call_becomes_fastest`: after completed
calls of durations 5 and 3, a call of duration 2 takes over the whole
fastest triple. -/
theorem strictly_faster_call_becomes_fastest_witness :
    (wrapperState (runTrace [⟨"f", "(5,)", "\x7b\x7d", "True", some 5⟩,
          ⟨"f", "(3,)", "\x7b\x7d", "True", some 3⟩])
        ⟨"g", "(2,)", "\x7b\x7d", "True", some 2⟩).fastest_func = some "g" ∧
      (wrapperState (runTrace [⟨"f", "(5,)", "\x7b\x7d", "True", some 5⟩,
            ⟨"f", "(3,)", "\x7b\x7d", "True", some 3⟩])
          ⟨"g", "(2,)", "\x7b\x7d", "True", some 2⟩).fastest_args
        = some (argsCapture ⟨"g", "(2,)", "\x7b\x7d", "True", some 2⟩) ∧
      (wrapperState (runTrace [⟨"f", "(5,)", "\x7b\x7d", "True", some 5⟩,
            ⟨"f", "(3,)", "\x7b\x7d", "True", some 3⟩])
          ⟨"g", "(2,)", "\x7b\x7d", "True", some 2⟩).fastest_time
        = ((2 : ℚ) : WithTop ℚ) :=
  strictly_faster_call_becomes_fastest
    [⟨"f", "(5,)", "\x7b\x7d", "True", some 5⟩,
      ⟨"f", "(3,)", "\x7b\x7d", "True", some 3⟩]
    ⟨"g", "(2,)", "\x7b\x7d", "True", some 2⟩ 2 rfl (by decide)

/-- Claim C8 counterexample: three completed calls of strictly decreasing
durations 3, 2, 1.  At the third call `call_time` exceeds 1 on any reading
(it is 2 before the increment, 3 after), yet the wrapper does not return
the summary string: `slowest_time` is still `None`, so the summary branch
raises `TypeError`. -/
theorem decreasing_calls_no_summary_counterexample :
    1 < (runTrace [⟨"f", "(3,)", "\x7b\x7d", "True", some 3⟩,
        ⟨"f", "(2,)", "\x7b\x7d", "True", some 2⟩]).call_time ∧
      wrapperResult (runTrace [⟨"f", "(3,)", "\x7b\x7d", "True", some 3⟩,
          ⟨"f", "(2,)", "\x7b\x7d", "True", some 2⟩])
        ⟨"f", "(1,)", "\x7b\x7d", "True", some 1⟩ = CallResult.typeError ∧
      (wrapperResult (runTrace [⟨"f", "(3,)", "\x7b\x7d", "True", some 3⟩,
          ⟨"f", "(2,)", "\x7b\x7d", "True", some 2⟩])
        ⟨"f", "(1,)", "\x7b\x7d", "True", some 1⟩).isSummary = false := by
  decide

/-- Claim C8 as amended: the wrapper discards the wrapped function's
return value — its behaviour is independent of it — and never propagates
it; on the very first call it returns no value; when `call_time > 1` after
the increment it returns the fastest-function summary string provided the
summary branch finds `slowest_time` set (and `fastest_time` nonzero),
while with `slowest_time` still `None` it raises `TypeError` instead. -/
theorem wrapper_return_behaviour :
    (∀ (s : TimingState) (c : CallEvent) (v : String),
        wrapper s { c with ret := v } = wrapper s c) ∧
      (∀ (s : TimingState) (c : CallEvent) (e : ℚ),
        c.outcome = some e → s.call_time = 0 →
          wrapperResult s c = CallResult.retNone) ∧
      (∀ (s : TimingState) (c : CallEvent) (e sl ft : ℚ),
        c.outcome = some e → 1 ≤ s.call_time →
          (wrapperState s c).slowest_time = some sl →
          (wrapperState s c).fastest_time = (ft : WithTop ℚ) → ft ≠ 0 →
          wrapperResult s c =
            CallResult.retSummary (wrapperState s c).fastest_func
              (wrapperState s c).fastest_args (wrapperState s c).fastest_time) ∧
      ∀ (s : TimingState) (c : CallEvent) (e : ℚ),
        c.outcome = some e → 1 ≤ s.call_time →
          (wrapperState s c).slowest_time = none →
          wrapperResult s c = CallResult.typeError := by
  refine ⟨?_, wrapperResult_retNone, wrapperResult_summary_of, wrapperResult_typeError_of⟩
  intro s c v
  cases c
  rfl

/-- Witness for `wrapper_return_behaviour`: after one completed call of
duration 1, a completed call of duration 5 reaches the summary branch with
`slowest_time = 5` and `fastest_time = 1` and returns the summary. -/
theorem wrapper_return_behaviour_witness :
    wrapperResult (runTrace [⟨"f", "(1,)", "\x7b\x7d", "True", some 1⟩])
        ⟨"f", "(5,)", "\x7b\x7d", "True", some 5⟩ =
      CallResult.retSummary
        (wrapperState (runTrace [⟨"f", "(1,)", "\x7b\x7d", "True", some 1⟩])
          ⟨"f", "(5,)", "\x7b\x7d", "True", some 5⟩).fastest_func
        (wrapperState (runTrace [⟨"f", "(1,)", "\x7b\x7d", "True", some 1⟩])
          ⟨"f", "(5,)", "\x7b\x7d", "True", some 5⟩).fastest_args
        (wrapperState (runTrace [⟨"f", "(1,)", "\x7b\x7d", "True", some 1⟩])
          ⟨"f", "(5,)", "\x7b\x7d", "True", some 5⟩).fastest_time :=
  wrapper_return_behaviour.2.2.1
    (runTrace [⟨"f", "(1,)", "\x7b\x7d", "True", some 1⟩])
    ⟨"f", "(5,)", "\x7b\x7d", "True", some 5⟩ 5 5 1 rfl
    (by decide) (by decide) (by decide) (by decide)

/-- Claim C9: the wrapper itself can raise even when the wrapped function
succeeds — on any completed call made after at least one earlier attempt
(`call_time ≥ 1` before the call, so the summary branch is taken), if
`slowest_time` is still `None` and the call's elapsed duration does not
exceed the current `fastest_time` (so `slowest_time` stays `None`), the
wrapper raises `TypeError` computing `slowest_time / fastest_time`.  In
particular every sequence whose completed calls are each at least as fast
as all previous ones keeps `slowest_time = None` and any such call
reaching the summary branch raises. -/
theorem stale_none_slowest_raises (evs : List CallEvent) (c : CallEvent) (e : ℚ)
    (h : c.outcome = some e) (h1 : 1 ≤ (runTrace evs).call_time)
    (h2 : (runTrace evs).slowest_time = none)
    (h3 : (e : WithTop ℚ) ≤ (runTrace evs).fastest_time) :
    wrapperResult (runTrace evs) c = CallResult.typeError := by
  apply wrapperResult_typeError_of _ c e h h1
  rw [wrapperState_outcome_some _ c e h]
  dsimp only
  rw [if_neg (not_lt.mpr h3), h2]

/-- Witness for `stale_none_slowest_raises`: after a completed call of
duration 3, a faster completed call of duration 2 raises `TypeError`. -/
theorem stale_none_slowest_raises_witness :
    wrapperResult (runTrace [⟨"f", "(3,)", "\x7b\x7d", "True", some 3⟩])
      ⟨"f", "(2,)", "\x7b\x7d", "True", some 2⟩ = CallResult.typeError :=
  stale_none_slowest_raises [⟨"f", "(3,)", "\x7b\x7d", "True", some 3⟩]
    ⟨"f", "(2,)", "\x7b\x7d", "True", some 2⟩ 2 rfl
    (by decide) (by decide) (by decide)

/-- Claim C10: at every reachable state, `fastest_func`, `fastest_time`
and `fastest_args` are consistent because they are only assigned together:
`fastest_func` is `None` iff `fastest_args` is `None` iff `fastest_time`
is positive infinity, which in turn holds iff no wrapped call has
completed yet. -/
theorem fastest_triple_consistency (evs : List CallEvent) :
    ((runTrace evs).fastest_func = none ↔ (runTrace evs).fastest_time = ⊤) ∧
      ((runTrace evs).fastest_args = none ↔ (runTrace evs).fastest_time = ⊤) ∧
      ((runTrace evs).fastest_time = ⊤ ↔ completedDurations evs = []) := by
  refine ⟨(runTrace_consistent evs).1, (runTrace_consistent evs).2, ?_⟩
  rw [runTrace_fastest]
  exact List.minimum_eq_top

end PythonIsFaster
